import Mathlib

/-!
Verification model of the ecommerce market-analysis scraper
(`ecommerce_scraper.py`).

The Python program is embedded shallowly:

* Text is modelled as `List Char` (`Str`), with Python string operations
  (`strip`, `lower`, `replace`, `join`, `split`) re-implemented over
  character lists.
* A parsed HTML document (a BeautifulSoup tree) is modelled by a `Doc`
  record holding, for each structural query the program performs, the
  result that query would return.  Exceptions the library might raise
  while probing the tree are modelled by explicit fault fields:
  `probeFault` (the classifier's `try` body raises) and `faultAt`
  (the index of the extraction step inside `extract_product_data`'s
  `try` body that raises, `none` when no exception occurs).
* Machine floats (`price_numeric`) are modelled as `ℚ`; every value the
  program produces for this field is a decimal of at most a few digits,
  exactly representable, so the model is faithful for the properties
  considered here.
* `requests`/network effects are modelled by a `ScrapeInput` value per
  identifier, supplied by an environment function `Nat → ScrapeInput`.
* `pandas.DataFrame` + `to_csv` is modelled as the list of flattened
  row records: the DataFrame construction creates one row per dict of
  `flattened_data` and `to_csv` emits one line per row; column
  reordering permutes columns only and is not modelled further.
* `urljoin` is an external library capability; it is modelled as
  returning the reference unchanged (the claims under study do not
  depend on URL resolution).
-/

/-- Python strings, modelled as lists of characters. -/
abbrev Str := List Char

/-- `str.strip()`: remove leading and trailing whitespace. -/
def stripChars (s : Str) : Str :=
  ((s.dropWhile Char.isWhitespace).reverse.dropWhile Char.isWhitespace).reverse

/-- `sep.join(xs)`. -/
def joinSep (sep : Str) : List Str → Str
  | [] => []
  | [x] => x
  | x :: y :: rest => x ++ sep ++ joinSep sep (y :: rest)

/-- `str.lower()` (ASCII-adequate for the data at hand). -/
def lowerStr (s : Str) : Str := s.map Char.toLower

/-- Does `pat` occur as a prefix of `s`? -/
def startsWithStr : Str → Str → Bool
  | [], _ => true
  | _ :: _, [] => false
  | p :: ps, c :: cs => p == c && startsWithStr ps cs

/-- Does `pat` occur as a contiguous substring of `s`? -/
def containsStr (pat : Str) : Str → Bool
  | [] => startsWithStr pat []
  | c :: cs => startsWithStr pat (c :: cs) || containsStr pat cs

/-- `re.search(r'404|not found|error', s, re.I)` succeeds:
the case-insensitive error-marker pattern used by
`is_valid_product_page` on `h1`/`title` node strings. -/
def hasErrorPattern (s : Str) : Bool :=
  let l := lowerStr s
  containsStr "404".data l || containsStr "not found".data l ||
    containsStr "error".data l

/-- `text.split(':', 1)`: split at the first colon.  Returns
(part before, part after); callers only use it when a colon exists. -/
def splitFirstColon : Str → Str × Str
  | [] => ([], [])
  | c :: cs =>
      if c = ':' then ([], cs)
      else
        let (k, v) := splitFirstColon cs
        (c :: k, v)

/-- Digits of a decimal numeral read as a natural number (the integer
`int(...)`/`float(...)` sees for a digit string). -/
def natOfDigits (s : Str) : Nat :=
  s.foldl (fun n c => 10 * n + (c.toNat - 48)) 0

/-- Leftmost match of `[\d,]+\.?\d*` on a string from which every comma
has already been removed (the program runs the regex on
`price_text.replace(',', '')`, so the character class reduces to
`\d+`): the maximal digit run starting at the first digit, an optional
decimal point, and a further maximal digit run.  Returns the integer
and fractional digit strings, or `none` when the string has no digit. -/
def numToken (s : Str) : Option (Str × Str) :=
  match s.dropWhile (fun c => !c.isDigit) with
  | [] => none
  | t =>
      let d1 := t.takeWhile Char.isDigit
      match t.dropWhile Char.isDigit with
      | '.' :: r2 => some (d1, r2.takeWhile Char.isDigit)
      | _ => some (d1, [])

/-- `float(group)` for a matched token `d1 ["." d2]`: the exact value
`d1 + d2 / 10 ^ len(d2)`, written with `mkRat` so it evaluates by
kernel reduction. -/
def tokenValue (tok : Str × Str) : ℚ :=
  mkRat (natOfDigits tok.1 * 10 ^ tok.2.length + natOfDigits tok.2) (10 ^ tok.2.length)

/-- Leftmost match of `(\d+)\s+reviews?` (case-insensitive), returning
the captured number.  `\d+` never needs to backtrack (a shortened digit
run is still followed by a digit, which `\s+` rejects), and `\s+`
greedily takes the whole whitespace run, after which the literal
`review` must follow. -/
def findReviewCount : Str → Option Nat
  | [] => none
  | c :: cs =>
      if c.isDigit then
        let ds := (c :: cs).takeWhile Char.isDigit
        let rest := (c :: cs).dropWhile Char.isDigit
        let ws := rest.takeWhile Char.isWhitespace
        if ws ≠ [] && startsWithStr "review".data (lowerStr (rest.dropWhile Char.isWhitespace)) then
          some (natOfDigits ds)
        else
          findReviewCount cs
      else
        findReviewCount cs

/-- `urljoin(url, src)`: external library capability, modelled as
returning the reference unchanged. -/
def urljoin (_pageUrl src : Str) : Str := src

/-- Result of each structural query `ecommerce_scraper.py` performs on
a parsed document, plus explicit exception switches for the two
`try` blocks that probe the tree. -/
structure Doc where
  /-- the classifier's `try` body raises -/
  probeFault : Bool
  /-- index of the extraction step in `extract_product_data`'s `try`
  body that raises; `none` = no exception -/
  faultAt : Option Nat
  /-- text of `soup.find('h1', class_='title page-title')` -/
  titleElem : Option Str
  /-- text of `soup.find('div', class_='product-price')` -/
  priceElem : Option Str
  /-- `soup.find('div', id='product-product')` found -/
  containerPresent : Bool
  /-- `soup.find('div', class_='error')` found -/
  errorDiv : Bool
  /-- strings of `h1` nodes, probed by `find('h1', string=...)` -/
  h1Strings : List Str
  /-- strings of `title` nodes, probed by `find('title', string=...)` -/
  titleTagStrings : List Str
  /-- `div[id=product_tabs.*] > div.block-content`: its
  `get_text(strip=True)` and the texts of its `p` descendants -/
  descBlock : Option (Str × List Str)
  /-- `li.product-stock`, and the text of its inner `span` if any -/
  stockSpan : Option (Option Str)
  /-- `li.product-model`, and the text of its inner `span` if any -/
  modelSpan : Option (Option Str)
  /-- `div.brand-image.product-manufacturer > a > span` chain -/
  brandChain : Option (Option (Option Str))
  /-- texts of the `li` children of `ul.breadcrumb` -/
  breadcrumb : Option (List Str)
  /-- texts of the `a` children of `div.tags` -/
  tagsDiv : Option (List Str)
  /-- `div.rating.rating-page`: the class-token lists of its `i`
  descendants and its own text -/
  ratingDiv : Option (List (List Str) × Str)
  /-- all `img` nodes: `(alt text, optional src)` in document order -/
  imgs : List (Str × Option Str)
  /-- texts of `span.product-label` nodes -/
  labelSpans : List Str
  /-- texts of the `li` children of `ul.list-unstyled` -/
  statsList : Option (List Str)
deriving DecidableEq

/-- `is_valid_product_page`: the three heuristics, guarded by the
`try/except` that maps any exception to `False`. -/
def is_valid_product_page (doc : Doc) : Bool :=
  if doc.probeFault then false
  else
    let has_product_elements := doc.titleElem.isSome && doc.containerPresent
    let has_no_errors :=
      !(doc.errorDiv || doc.h1Strings.any hasErrorPattern ||
        doc.titleTagStrings.any hasErrorPattern)
    let has_meaningful_title :=
      match doc.titleElem with
      | some t => decide (3 < (stripChars t).length)
      | none => false
    has_product_elements && has_no_errors && has_meaningful_title

/-- The record built by `extract_product_data` (the `product_data`
dict), with `price_numeric` as an exact rational. -/
structure ProductRecord where
  sku : Nat
  url : Str
  scraped_at : Str
  product_name : Str
  price : Str
  price_numeric : ℚ
  currency : Str
  product_description : Str
  product_features : Str
  stock_status : Str
  model : Str
  brand : Str
  manufacturer : Str
  category : Str
  tags : Str
  rating : Nat
  review_count : Nat
  reviews_text : Str
  image_urls : List Str
  main_image_url : Str
  product_labels : Str
  specifications : List (Str × Str)
deriving DecidableEq

/-- The `product_data` dict as initialised at the top of
`extract_product_data`: every field at its documented default. -/
def initRecord (sku : Nat) (url : Str) (ts : Str) : ProductRecord where
  sku := sku
  url := url
  scraped_at := ts
  product_name := []
  price := []
  price_numeric := 0
  currency := "KES".data
  product_description := []
  product_features := []
  stock_status := []
  model := []
  brand := []
  manufacturer := []
  category := []
  tags := []
  rating := 0
  review_count := 0
  reviews_text := []
  image_urls := []
  main_image_url := []
  product_labels := []
  specifications := []

/-- Extraction step 0: product name from the title heading. -/
def stepName (doc : Doc) (r : ProductRecord) : ProductRecord :=
  match doc.titleElem with
  | some t => { r with product_name := stripChars t }
  | none => r

/-- Extraction step 1: display price and numeric price.  The inner
`try` around `float(...)` never fires in the model because a matched
token is always a valid float literal. -/
def stepPrice (doc : Doc) (r : ProductRecord) : ProductRecord :=
  match doc.priceElem with
  | none => r
  | some t =>
      let priceText := stripChars t
      let r1 := { r with price := priceText }
      match numToken (priceText.filter (fun c => c ≠ ',')) with
      | none => r1
      | some tok => { r1 with price_numeric := tokenValue tok }

/-- Extraction step 2: description text and bullet-feature lines. -/
def stepDesc (doc : Doc) (r : ProductRecord) : ProductRecord :=
  match doc.descBlock with
  | none => r
  | some (txt, paras) =>
      let features := (paras.map stripChars).filter
        (fun t => t ≠ [] && ('●' ∈ t || containsStr "Features:".data t))
      { r with
        product_description := txt
        product_features := joinSep " | ".data features }

/-- Extraction step 3: stock status from the labelled list item. -/
def stepStock (doc : Doc) (r : ProductRecord) : ProductRecord :=
  match doc.stockSpan with
  | some (some s) => { r with stock_status := stripChars s }
  | _ => r

/-- Extraction step 4: model string from the labelled list item. -/
def stepModel (doc : Doc) (r : ProductRecord) : ProductRecord :=
  match doc.modelSpan with
  | some (some s) => { r with model := stripChars s }
  | _ => r

/-- Extraction step 5: brand from the brand-image/link/span chain,
mirrored into manufacturer. -/
def stepBrand (doc : Doc) (r : ProductRecord) : ProductRecord :=
  match doc.brandChain with
  | some (some (some s)) =>
      { r with brand := stripChars s, manufacturer := stripChars s }
  | _ => r

/-- Extraction step 6: category from the breadcrumb, skipping the home
entry and dropping the final (product-name) entry. -/
def stepCategory (doc : Doc) (r : ProductRecord) : ProductRecord :=
  match doc.breadcrumb with
  | none => r
  | some lis =>
      let items := (lis.drop 1).map stripChars
      if items ≠ [] then
        { r with category := joinSep " > ".data items.dropLast }
      else r

/-- Extraction step 7: tags from anchor texts in the tags container. -/
def stepTags (doc : Doc) (r : ProductRecord) : ProductRecord :=
  match doc.tagsDiv with
  | none => r
  | some links => { r with tags := joinSep ", ".data (links.map stripChars) }

/-- Extraction step 8: rating as the count of `fa-star` icon nodes and
review count parsed from the rating container's text. -/
def stepRating (doc : Doc) (r : ProductRecord) : ProductRecord :=
  match doc.ratingDiv with
  | none => r
  | some (icons, txt) =>
      let r1 := { r with rating := (icons.filter (fun cls => "fa-star".data ∈ cls)).length }
      match findReviewCount txt with
      | some n => { r1 with review_count := n }
      | none => r1

/-- The `for img in additional_images[1:]` loop: append each resolved
src not already collected. -/
def imageFold (url : Str) (acc : List Str) : List (Str × Option Str) → List Str
  | [] => acc
  | (_, none) :: rest => imageFold url acc rest
  | (_, some src) :: rest =>
      let u := urljoin url src
      if u ∈ acc then imageFold url acc rest
      else imageFold url (acc ++ [u]) rest

/-- Extraction step 9: main image and de-duplicated image URL list,
matching `img` nodes whose alt text equals the extracted name. -/
def stepImages (doc : Doc) (url : Str) (r : ProductRecord) : ProductRecord :=
  let found := doc.imgs.filter (fun p => p.1 == r.product_name)
  let start :=
    match found.head? with
    | some (_, some src) => let u := urljoin url src; (some u, [u])
    | _ => ((none : Option Str), ([] : List Str))
  { r with
    main_image_url := start.1.getD r.main_image_url
    image_urls := imageFold url start.2 (found.drop 1) }

/-- Extraction step 10: promotional labels. -/
def stepLabels (doc : Doc) (r : ProductRecord) : ProductRecord :=
  if doc.labelSpans ≠ [] then
    { r with product_labels := joinSep ", ".data (doc.labelSpans.map stripChars) }
  else r

/-- Python dict assignment `specs[key] = value` on an
insertion-ordered association list. -/
def upsert (k v : Str) : List (Str × Str) → List (Str × Str)
  | [] => [(k, v)]
  | (k0, v0) :: rest =>
      if k0 = k then (k0, v) :: rest else (k0, v0) :: upsert k v rest

/-- Extraction step 11: specifications from `Key: Value` list items.
The key comes from `split(':', 1)` so the later `replace(':', '')` is
a no-op; only `strip()` is applied — no lower-casing, no space
removal. -/
def stepSpecs (doc : Doc) (r : ProductRecord) : ProductRecord :=
  match doc.statsList with
  | none => r
  | some lis =>
      let specs := lis.foldl
        (fun acc t =>
          if ':' ∈ t then
            let kv := splitFirstColon t
            upsert (stripChars kv.1) (stripChars kv.2) acc
          else acc)
        []
      { r with specifications := specs }

/-- The ordered extraction steps of `extract_product_data`'s single
`try` body. -/
def stepList (doc : Doc) (url : Str) : List (ProductRecord → ProductRecord) :=
  [stepName doc, stepPrice doc, stepDesc doc, stepStock doc, stepModel doc,
   stepBrand doc, stepCategory doc, stepTags doc, stepRating doc,
   stepImages doc url, stepLabels doc, stepSpecs doc]

/-- Run the steps in order; an exception at step `i` (the `some i`
case) jumps to the single `except` handler, which logs and falls
through to `return product_data` with the record as it stood. -/
def runSteps : List (ProductRecord → ProductRecord) → Option Nat → ProductRecord → ProductRecord
  | [], _, r => r
  | _ :: _, some 0, r => r
  | f :: fs, some (n + 1), r => runSteps fs (some n) (f r)
  | f :: fs, none, r => runSteps fs none (f r)

/-- `extract_product_data(soup, sku, url)`: initialise the record, run
the extraction steps inside one `try`, and return the record whether
or not an exception occurred. -/
def extract_product_data (doc : Doc) (sku : Nat) (url : Str) (ts : Str) : ProductRecord :=
  runSteps (stepList doc url) doc.faultAt (initRecord sku url ts)

/-- What the network returns for one identifier: the outcome cases of
`scrape_product`'s `try` body. -/
inductive ScrapeInput where
  /-- HTTP 404 -/
  | notFound
  /-- HTTP status other than 200 and 404 -/
  | httpError
  /-- `requests.exceptions.RequestException` (timeout, connection, DNS) -/
  | netError
  /-- any other exception inside `scrape_product` -/
  | crash
  /-- HTTP 200 with a parsed document -/
  | page (doc : Doc)
deriving DecidableEq

/-- The base URL of the scraper. -/
def baseUrl : Str := "https://store.nerokas.co.ke/SKU-".data

/-- `f"{self.base_url}{sku}"`. -/
def urlOf (sku : Nat) : Str := baseUrl ++ Nat.toDigits 10 sku

/-- `scrape_product(sku)`: `None` on 404, other HTTP errors, network
errors, unexpected exceptions, invalid pages, and extracted records
with an empty name; otherwise the extracted record. -/
def scrape_product (sku : Nat) (ts : Str) (inp : ScrapeInput) : Option ProductRecord :=
  match inp with
  | .page doc =>
      if is_valid_product_page doc then
        let r := extract_product_data doc sku (urlOf sku) ts
        if r.product_name ≠ [] then some r else none
      else none
  | _ => none

/-- The scraper's mutable session counters and corpus
(`successful_scrapes`, `failed_scrapes`, `consecutive_failures`,
the loop-local `page_count`, and `products_data`). -/
structure SessionState where
  successful_scrapes : Nat
  failed_scrapes : Nat
  consecutive_failures : Nat
  processed : Nat
  products_data : List ProductRecord
deriving DecidableEq

/-- Counter state at `__init__` / loop entry. -/
def initSession : SessionState :=
  { successful_scrapes := 0, failed_scrapes := 0, consecutive_failures := 0,
    processed := 0, products_data := [] }

/-- One iteration of the `for sku in range(...)` body: call
`scrape_product` and update the counters.  On success the counter
updates of `scrape_product` (lines 271-272) and of the loop body
(line 392) combine to `successful_scrapes + 1` and
`consecutive_failures = 0`; on failure the loop body increments both
failure counters. -/
def crawlStep (ts : Str) (inp : ScrapeInput) (sku : Nat) (st : SessionState) : SessionState :=
  match scrape_product sku ts inp with
  | some r =>
      { st with
        products_data := st.products_data ++ [r]
        successful_scrapes := st.successful_scrapes + 1
        consecutive_failures := 0
        processed := st.processed + 1 }
  | none =>
      { st with
        failed_scrapes := st.failed_scrapes + 1
        consecutive_failures := st.consecutive_failures + 1
        processed := st.processed + 1 }

/-- How the crawl loop ended: fell off the end of the range, or broke
out via the consecutive-failure stop condition. -/
inductive RunResult where
  | completed
  | aborted
deriving DecidableEq

/-- The crawl loop over a list of identifiers: after each step, stop
with `aborted` when `consecutive_failures >= max_consecutive_failures`
(line 404), else continue; an exhausted range yields `completed`. -/
def crawlLoop (ts : Str) (env : Nat → ScrapeInput) (thr : Nat) :
    List Nat → SessionState → SessionState × RunResult
  | [], st => (st, .completed)
  | sku :: rest, st =>
      let st1 := crawlStep ts (env sku) sku st
      if thr ≤ st1.consecutive_failures then (st1, .aborted)
      else crawlLoop ts env thr rest st1

/-- The session states observed after each executed iteration of the
loop (the trace of the run, ending at the state in which the loop
stopped). -/
def crawlTrace (ts : Str) (env : Nat → ScrapeInput) (thr : Nat) :
    List Nat → SessionState → List SessionState
  | [], _ => []
  | sku :: rest, st =>
      let st1 := crawlStep ts (env sku) sku st
      if thr ≤ st1.consecutive_failures then [st1]
      else st1 :: crawlTrace ts env thr rest st1

/-- `range(start_sku, max_sku + 1)`. -/
def skuRange (start_sku max_sku : Nat) : List Nat :=
  List.range' start_sku (max_sku + 1 - start_sku)

/-- `run_market_analysis(start_sku, max_sku, max_consecutive_failures)`
up to (and excluding) the final save: the loop over the identifier
range from a fresh session. -/
def run_market_analysis (ts : Str) (env : Nat → ScrapeInput)
    (start_sku max_sku thr : Nat) : SessionState × RunResult :=
  crawlLoop ts env thr (skuRange start_sku max_sku) initSession

/-- A flattened CSV row: the scalar fields of a record, the joined
image-URL string, and one `spec_*` column per specification key. -/
structure FlatRow where
  sku : Nat
  url : Str
  scraped_at : Str
  product_name : Str
  price : Str
  price_numeric : ℚ
  currency : Str
  product_description : Str
  product_features : Str
  stock_status : Str
  model : Str
  brand : Str
  manufacturer : Str
  category : Str
  tags : Str
  rating : Nat
  review_count : Nat
  reviews_text : Str
  image_urls : Str
  main_image_url : Str
  product_labels : Str
  specCols : List (Str × Str)
deriving DecidableEq

/-- Column-name normalisation the persister applies to specification
keys: `f'spec_{key.lower().replace(" ", "_")}'`. -/
def specColName (k : Str) : Str :=
  "spec_".data ++ (lowerStr k).map (fun c => if c = ' ' then '_' else c)

/-- One pass of the flattening loop body in `save_to_csv`: copy the
record, explode `specifications` into prefixed columns, and join
`image_urls` with `|`. -/
def flattenRecord (r : ProductRecord) : FlatRow where
  sku := r.sku
  url := r.url
  scraped_at := r.scraped_at
  product_name := r.product_name
  price := r.price
  price_numeric := r.price_numeric
  currency := r.currency
  product_description := r.product_description
  product_features := r.product_features
  stock_status := r.stock_status
  model := r.model
  brand := r.brand
  manufacturer := r.manufacturer
  category := r.category
  tags := r.tags
  rating := r.rating
  review_count := r.review_count
  reviews_text := r.reviews_text
  image_urls := joinSep "|".data r.image_urls
  main_image_url := r.main_image_url
  product_labels := r.product_labels
  specCols := r.specifications.map (fun kv => (specColName kv.1, kv.2))

/-- `save_to_csv`: on an empty corpus, warn and write nothing
(`none`); otherwise flatten every record into one row and write one
CSV line per row (`pandas.DataFrame` keeps one row per dict and the
column reordering permutes columns only). -/
def save_to_csv (products : List ProductRecord) : Option (List FlatRow) :=
  if products = [] then none
  else some (products.map flattenRecord)

/-- A full run including the epilogue of `run_market_analysis`
(lines 411-416): `saves` records one element per invocation of
`save_to_csv`, which the epilogue performs exactly when the corpus is
non-empty. -/
structure RunOutput where
  state : SessionState
  result : RunResult
  saves : List (Option (List FlatRow))

/-- `run_market_analysis` with its final save epilogue. -/
def runAndSave (ts : Str) (env : Nat → ScrapeInput)
    (start_sku max_sku thr : Nat) : RunOutput :=
  let out := run_market_analysis ts env start_sku max_sku thr
  { state := out.1
    result := out.2
    saves := if out.1.products_data = [] then [] else [save_to_csv out.1.products_data] }

/-- Last element of a list, or the default when empty. -/
def lastD (d : α) : List α → α
  | [] => d
  | a :: l => lastD a l

/-- A document with every query empty: nothing to extract. -/
def docEmpty : Doc where
  probeFault := false
  faultAt := none
  titleElem := none
  priceElem := none
  containerPresent := false
  errorDiv := false
  h1Strings := []
  titleTagStrings := []
  descBlock := none
  stockSpan := none
  modelSpan := none
  brandChain := none
  breadcrumb := none
  tagsDiv := none
  ratingDiv := none
  imgs := []
  labelSpans := []
  statsList := none

/-- The document of spec Scenario B: title "USB Sensor Module", price
text "KES 1,250.00", a rating container with 4 filled-star icons and
the text "12 reviews". -/
def docB : Doc :=
  { docEmpty with
    titleElem := some "USB Sensor Module".data
    priceElem := some "KES 1,250.00".data
    containerPresent := true
    ratingDiv := some ([["fa".data, "fa-star".data], ["fa".data, "fa-star".data],
      ["fa".data, "fa-star".data], ["fa".data, "fa-star".data]],
      "12 reviews".data) }

/-- A valid product document whose price-extraction step raises: the
title and a stock-status span are present, and step 1 (price) throws. -/
def docFault : Doc :=
  { docEmpty with
    faultAt := some 1
    titleElem := some "Gadget Widget".data
    containerPresent := true
    priceElem := some "KES 999.00".data
    stockSpan := some (some " In Stock ".data) }

/-- `docFault` with the exception removed. -/
def docFaultFree : Doc := { docFault with faultAt := none }

/-- A document carrying one `Key: Value` specification list item whose
key has an upper-case letter and an internal space. -/
def docSpecs : Doc :=
  { docEmpty with
    titleElem := some "Gadget Widget".data
    containerPresent := true
    statsList := some ["Product Code: ABC".data] }

theorem crawlStep_cf (ts : Str) (inp : ScrapeInput) (sku : Nat) (st : SessionState) :
    (crawlStep ts inp sku st).consecutive_failures = 0 ∨
    (crawlStep ts inp sku st).consecutive_failures = st.consecutive_failures + 1 := by
  unfold crawlStep
  cases scrape_product sku ts inp <;> simp

theorem crawlStep_processed (ts : Str) (inp : ScrapeInput) (sku : Nat) (st : SessionState) :
    (crawlStep ts inp sku st).processed = st.processed + 1 := by
  unfold crawlStep
  cases scrape_product sku ts inp <;> simp

theorem crawlStep_succ (ts : Str) (inp : ScrapeInput) (sku : Nat) (st : SessionState)
    (h : st.successful_scrapes = st.products_data.length) :
    (crawlStep ts inp sku st).successful_scrapes =
      (crawlStep ts inp sku st).products_data.length := by
  unfold crawlStep
  cases scrape_product sku ts inp <;> simp [h]

theorem crawlLoop_inv (ts : Str) (env : Nat → ScrapeInput) (thr : Nat) :
    ∀ (l : List Nat) (st : SessionState), st.consecutive_failures < thr →
      ((crawlLoop ts env thr l st).2 = RunResult.aborted →
        (crawlLoop ts env thr l st).1.consecutive_failures = thr) ∧
      ((crawlLoop ts env thr l st).2 = RunResult.completed →
        (crawlLoop ts env thr l st).1.consecutive_failures < thr ∧
        (crawlLoop ts env thr l st).1.processed = st.processed + l.length) ∧
      (∀ s ∈ crawlTrace ts env thr l st, s.consecutive_failures ≤ thr) ∧
      (∀ s ∈ crawlTrace ts env thr l st, s.consecutive_failures = thr →
        (crawlLoop ts env thr l st).2 = RunResult.aborted ∧
        (crawlLoop ts env thr l st).1 = s) ∧
      (crawlLoop ts env thr l st).1 = lastD st (crawlTrace ts env thr l st) := by
  intro l
  induction l with
  | nil =>
      intro st hst
      refine ⟨?_, ?_, ?_, ?_, ?_⟩
      · intro h
        simp [crawlLoop] at h
      · intro _
        exact ⟨hst, by simp [crawlLoop]⟩
      · intro s hs
        simp [crawlTrace] at hs
      · intro s hs
        simp [crawlTrace] at hs
      · simp [crawlLoop, crawlTrace, lastD]
  | cons sku rest ih =>
      intro st hst
      simp only [crawlLoop, crawlTrace]
      by_cases hstop : thr ≤ (crawlStep ts (env sku) sku st).consecutive_failures
      · have hq : (crawlStep ts (env sku) sku st).consecutive_failures = thr := by
          rcases crawlStep_cf ts (env sku) sku st with h0 | h1 <;> omega
        simp only [if_pos hstop]
        refine ⟨fun _ => hq, ?_, ?_, ?_, by simp [lastD]⟩
        · intro h; cases h
        · intro s hs
          simp only [List.mem_singleton] at hs
          subst hs
          omega
        · intro s hs _
          simp only [List.mem_singleton] at hs
          subst hs
          exact ⟨by trivial, by trivial⟩
      · push_neg at hstop
        obtain ⟨ha, hc, htr, hterm, hl⟩ := ih (crawlStep ts (env sku) sku st) hstop
        simp only [if_neg (by omega : ¬ thr ≤ (crawlStep ts (env sku) sku st).consecutive_failures)]
        refine ⟨ha, ?_, ?_, ?_, by simpa [lastD] using hl⟩
        · intro h2
          obtain ⟨h3, h4⟩ := hc h2
          refine ⟨h3, ?_⟩
          rw [h4, crawlStep_processed]
          simp
          omega
        · intro s hs
          rcases List.mem_cons.mp hs with rfl | hs2
          · omega
          · exact htr s hs2
        · intro s hs heq
          rcases List.mem_cons.mp hs with rfl | hs2
          · omega
          · exact hterm s hs2 heq

/-- C1: starting from a fresh session, the crawl loop transitions to
`aborted` exactly when the consecutive-failure count reaches the
threshold — the final count then equals the threshold (never less:
it cannot abort sooner; never more: no observed state ever exceeds the
threshold, so it never runs a further step after reaching it) — and
when the identifier range `[start_sku, max_sku]` is exhausted first it
transitions to `completed`, having processed all
`max_sku + 1 - start_sku` identifiers with the count still below the
threshold. -/
theorem controller_halting (ts : Str) (env : Nat → ScrapeInput)
    (start_sku max_sku thr : Nat) (hthr : 1 ≤ thr) :
    ((run_market_analysis ts env start_sku max_sku thr).2 = RunResult.aborted →
      (run_market_analysis ts env start_sku max_sku thr).1.consecutive_failures = thr) ∧
    ((run_market_analysis ts env start_sku max_sku thr).2 = RunResult.completed →
      (run_market_analysis ts env start_sku max_sku thr).1.consecutive_failures < thr ∧
      (run_market_analysis ts env start_sku max_sku thr).1.processed =
        max_sku + 1 - start_sku) ∧
    (∀ s ∈ crawlTrace ts env thr (skuRange start_sku max_sku) initSession,
      s.consecutive_failures ≤ thr) ∧
    (∀ s ∈ crawlTrace ts env thr (skuRange start_sku max_sku) initSession,
      s.consecutive_failures = thr →
        (run_market_analysis ts env start_sku max_sku thr).2 = RunResult.aborted ∧
        (run_market_analysis ts env start_sku max_sku thr).1 = s) ∧
    (run_market_analysis ts env start_sku max_sku thr).1 =
      lastD initSession (crawlTrace ts env thr (skuRange start_sku max_sku) initSession) := by
  have h0 : initSession.consecutive_failures < thr := by
    simp only [initSession]
    omega
  obtain ⟨ha, hc, htr, hterm, hl⟩ :=
    crawlLoop_inv ts env thr (skuRange start_sku max_sku) initSession h0
  refine ⟨ha, ?_, htr, hterm, hl⟩
  intro h2
  obtain ⟨h3, h4⟩ := hc h2
  refine ⟨h3, ?_⟩
  show (crawlLoop ts env thr (skuRange start_sku max_sku) initSession).1.processed =
    max_sku + 1 - start_sku
  rw [h4]
  simp [initSession, skuRange, List.length_range']

/-- Witness for C1 at a concrete run: one identifier, threshold 1, a
404 for every identifier — the run aborts with the count at the
threshold. -/
theorem controller_halting_witness :
    (run_market_analysis [] (fun _ => ScrapeInput.notFound) 0 0 1).2 = RunResult.aborted ∧
    (run_market_analysis [] (fun _ => ScrapeInput.notFound) 0 0 1).1.consecutive_failures = 1 :=
  ⟨by decide,
   (controller_halting [] (fun _ => ScrapeInput.notFound) 0 0 1 (by decide)).1 (by decide)⟩

/-- C2: after each crawl iteration the consecutive-failure counter is
0 exactly when the step succeeded and the previous value plus 1
otherwise; and a step succeeds exactly when the input was an HTTP-200
page that passed validation and whose extracted record has a non-empty
name (every other outcome — 404, transport error, unexpected
exception, invalid page, empty name — is a failure). -/
theorem consecutive_failures_step (ts : Str) (st : SessionState) (sku : Nat)
    (inp : ScrapeInput) :
    (crawlStep ts inp sku st).consecutive_failures =
      (if (scrape_product sku ts inp).isSome then 0 else st.consecutive_failures + 1) ∧
    ((scrape_product sku ts inp).isSome = true ↔
      ∃ doc, inp = ScrapeInput.page doc ∧ is_valid_product_page doc = true ∧
        (extract_product_data doc sku (urlOf sku) ts).product_name ≠ []) := by
  constructor
  · unfold crawlStep
    cases h : scrape_product sku ts inp <;> simp [h]
  · cases inp with
    | page doc =>
        simp only [scrape_product, ScrapeInput.page.injEq]
        by_cases hv : is_valid_product_page doc
        · by_cases hn : (extract_product_data doc sku (urlOf sku) ts).product_name = []
          · simp [hv, hn]
          · simp [hv, hn]
        · simp [hv]
    | notFound => simp [scrape_product]
    | httpError => simp [scrape_product]
    | netError => simp [scrape_product]
    | crash => simp [scrape_product]

theorem crawlLoop_corpus_inv (ts : Str) (env : Nat → ScrapeInput) (thr : Nat) :
    ∀ (l : List Nat) (st : SessionState),
      st.successful_scrapes = st.products_data.length →
      (crawlLoop ts env thr l st).1.successful_scrapes =
        (crawlLoop ts env thr l st).1.products_data.length ∧
      ∀ s ∈ crawlTrace ts env thr l st,
        s.successful_scrapes = s.products_data.length := by
  intro l
  induction l with
  | nil =>
      intro st hst
      simp only [crawlLoop, crawlTrace]
      exact ⟨hst, by simp⟩
  | cons sku rest ih =>
      intro st hst
      have hstep := crawlStep_succ ts (env sku) sku st hst
      simp only [crawlLoop, crawlTrace]
      by_cases hstop : thr ≤ (crawlStep ts (env sku) sku st).consecutive_failures
      · simp only [if_pos hstop]
        refine ⟨hstep, ?_⟩
        intro s hs
        simp only [List.mem_singleton] at hs
        subst hs
        exact hstep
      · simp only [if_neg hstop]
        obtain ⟨h1, h2⟩ := ih (crawlStep ts (env sku) sku st) hstep
        refine ⟨h1, ?_⟩
        intro s hs
        rcases List.mem_cons.mp hs with rfl | hs2
        · exact hstep
        · exact h2 s hs2

/-- C10: throughout every crawl session (at every observed state of
the trace, and at loop exit) the successful-scrape counter equals the
length of the accumulated corpus. -/
theorem success_counter_eq_corpus (ts : Str) (env : Nat → ScrapeInput)
    (start_sku max_sku thr : Nat) :
    (run_market_analysis ts env start_sku max_sku thr).1.successful_scrapes =
      (run_market_analysis ts env start_sku max_sku thr).1.products_data.length ∧
    ∀ s ∈ crawlTrace ts env thr (skuRange start_sku max_sku) initSession,
      s.successful_scrapes = s.products_data.length :=
  crawlLoop_corpus_inv ts env thr (skuRange start_sku max_sku) initSession (by simp [initSession])

/-- C6: a fetched page is classified valid exactly when no exception
occurred while probing it and all three heuristics hold — a product
title node and the product container are present, no error-marker node
(error-class div, or `h1`/`title` text matching the case-insensitive
404/not-found/error pattern) exists, and the trimmed title text is
longer than 3 characters.  In particular an internal exception always
yields the non-product verdict, never a propagated error. -/
theorem classifier_valid_iff (doc : Doc) :
    is_valid_product_page doc = true ↔
      (doc.probeFault = false ∧
        ∃ t, doc.titleElem = some t ∧ doc.containerPresent = true ∧
          doc.errorDiv = false ∧
          (∀ s ∈ doc.h1Strings, hasErrorPattern s = false) ∧
          (∀ s ∈ doc.titleTagStrings, hasErrorPattern s = false) ∧
          3 < (stripChars t).length) := by
  unfold is_valid_product_page
  cases hpf : doc.probeFault with
  | true => simp
  | false =>
      cases ht : doc.titleElem with
      | none => simp [ht]
      | some t =>
          simp only [ht, if_false, Bool.false_eq_true, Option.isSome_some, Bool.true_and,
            Bool.and_eq_true, Bool.not_eq_true', Bool.or_eq_false_iff, List.any_eq_false,
            decide_eq_true_eq, Option.some.injEq, Bool.not_eq_true]
          constructor
          · intro h
            refine ⟨trivial, t, rfl, ?_⟩
            tauto
          · rintro ⟨-, t2, rfl, hrest⟩
            tauto

/-- C5: whenever the accumulated corpus is non-empty at loop exit, the
controller invokes the persister exactly once — whether the run
completed the range or aborted on the circuit breaker — and the single
save receives every accumulated record. -/
theorem persist_exactly_once (ts : Str) (env : Nat → ScrapeInput)
    (start_sku max_sku thr : Nat)
    (h : (runAndSave ts env start_sku max_sku thr).state.products_data ≠ []) :
    (runAndSave ts env start_sku max_sku thr).saves =
      [some ((runAndSave ts env start_sku max_sku thr).state.products_data.map
        flattenRecord)] ∧
    (runAndSave ts env start_sku max_sku thr).saves.length = 1 := by
  have hst : (runAndSave ts env start_sku max_sku thr).state =
      (run_market_analysis ts env start_sku max_sku thr).1 := rfl
  rw [hst] at h
  have hsaves : (runAndSave ts env start_sku max_sku thr).saves =
      [save_to_csv (run_market_analysis ts env start_sku max_sku thr).1.products_data] := by
    show (if (run_market_analysis ts env start_sku max_sku thr).1.products_data = [] then
        ([] : List (Option (List FlatRow)))
      else [save_to_csv (run_market_analysis ts env start_sku max_sku thr).1.products_data]) = _
    rw [if_neg h]
  rw [hsaves, hst]
  refine ⟨?_, rfl⟩
  rw [save_to_csv, if_neg h]

/-- Witness for C5: a one-identifier run that scrapes the Scenario B
document successfully; the corpus is non-empty and the single save
receives it. -/
theorem persist_exactly_once_witness :
    (runAndSave [] (fun _ => ScrapeInput.page docB) 7 7 100).state.products_data ≠ [] ∧
    (runAndSave [] (fun _ => ScrapeInput.page docB) 7 7 100).saves =
      [some ((runAndSave [] (fun _ => ScrapeInput.page docB) 7 7 100).state.products_data.map
        flattenRecord)] :=
  ⟨by decide, (persist_exactly_once [] (fun _ => ScrapeInput.page docB) 7 7 100 (by decide)).1⟩

/-- C9: on a non-empty corpus the persister emits exactly one flattened
row per accumulated record — the row count of the tabular output equals
the corpus length. -/
theorem save_row_count (products : List ProductRecord) (h : products ≠ []) :
    save_to_csv products = some (products.map flattenRecord) ∧
    (products.map flattenRecord).length = products.length := by
  refine ⟨?_, by simp⟩
  rw [save_to_csv, if_neg h]

/-- Witness for C9 on a concrete singleton corpus. -/
theorem save_row_count_witness :
    ([initRecord 0 [] []] : List ProductRecord) ≠ [] ∧
    save_to_csv [initRecord 0 [] []] =
      some (([initRecord 0 [] []] : List ProductRecord).map flattenRecord) ∧
    (([initRecord 0 [] []] : List ProductRecord).map flattenRecord).length =
      ([initRecord 0 [] []] : List ProductRecord).length :=
  ⟨by decide, save_row_count [initRecord 0 [] []] (by decide)⟩

theorem tokenValue_nonneg (tok : Str × Str) : 0 ≤ tokenValue tok := by
  unfold tokenValue
  rw [Rat.mkRat_eq_div]
  positivity

theorem mem_of_stripChars {c : Char} {s : Str} (h : c ∈ stripChars s) : c ∈ s := by
  unfold stripChars at h
  rw [List.mem_reverse] at h
  have h1 := (List.dropWhile_sublist _).subset h
  rw [List.mem_reverse] at h1
  exact (List.dropWhile_sublist _).subset h1

theorem numToken_eq_none (s : Str) (h : ∀ c ∈ s, c.isDigit = false) :
    numToken s = none := by
  have hd : s.dropWhile (fun c => !c.isDigit) = [] :=
    List.dropWhile_eq_nil_iff.mpr (by intro a ha; simp [h a ha])
  unfold numToken
  rw [hd]

theorem stepName_price (doc : Doc) (r : ProductRecord) :
    (stepName doc r).price_numeric = r.price_numeric := by
  unfold stepName
  (repeat' split) <;> rfl

theorem stepDesc_price (doc : Doc) (r : ProductRecord) :
    (stepDesc doc r).price_numeric = r.price_numeric := by
  unfold stepDesc
  (repeat' split) <;> rfl

theorem stepStock_price (doc : Doc) (r : ProductRecord) :
    (stepStock doc r).price_numeric = r.price_numeric := by
  unfold stepStock
  (repeat' split) <;> rfl

theorem stepModel_price (doc : Doc) (r : ProductRecord) :
    (stepModel doc r).price_numeric = r.price_numeric := by
  unfold stepModel
  (repeat' split) <;> rfl

theorem stepBrand_price (doc : Doc) (r : ProductRecord) :
    (stepBrand doc r).price_numeric = r.price_numeric := by
  unfold stepBrand
  (repeat' split) <;> rfl

theorem stepCategory_price (doc : Doc) (r : ProductRecord) :
    (stepCategory doc r).price_numeric = r.price_numeric := by
  unfold stepCategory
  cases h : doc.breadcrumb with
  | none => rfl
  | some lis =>
      dsimp only
      split <;> rfl

theorem stepTags_price (doc : Doc) (r : ProductRecord) :
    (stepTags doc r).price_numeric = r.price_numeric := by
  unfold stepTags
  (repeat' split) <;> rfl

theorem stepRating_price (doc : Doc) (r : ProductRecord) :
    (stepRating doc r).price_numeric = r.price_numeric := by
  unfold stepRating
  (repeat' split) <;> rfl

theorem stepImages_price (doc : Doc) (url : Str) (r : ProductRecord) :
    (stepImages doc url r).price_numeric = r.price_numeric := by
  unfold stepImages
  rfl

theorem stepLabels_price (doc : Doc) (r : ProductRecord) :
    (stepLabels doc r).price_numeric = r.price_numeric := by
  unfold stepLabels
  (repeat' split) <;> rfl

theorem stepSpecs_price (doc : Doc) (r : ProductRecord) :
    (stepSpecs doc r).price_numeric = r.price_numeric := by
  unfold stepSpecs
  (repeat' split) <;> rfl

theorem stepPrice_nonneg (doc : Doc) (r : ProductRecord)
    (h : 0 ≤ r.price_numeric) : 0 ≤ (stepPrice doc r).price_numeric := by
  unfold stepPrice
  cases hp : doc.priceElem with
  | none => exact h
  | some t =>
      dsimp only
      cases hn : numToken ((stripChars t).filter (fun c => c ≠ ',')) with
      | none => exact h
      | some tok => exact tokenValue_nonneg tok

theorem stepPrice_zero (doc : Doc) (r : ProductRecord)
    (hr : r.price_numeric = 0)
    (hnd : ∀ c ∈ doc.priceElem.getD [], c.isDigit = false) :
    (stepPrice doc r).price_numeric = 0 := by
  unfold stepPrice
  cases hp : doc.priceElem with
  | none => exact hr
  | some t =>
      have hnone : numToken ((stripChars t).filter (fun c => c ≠ ',')) = none := by
        apply numToken_eq_none
        intro c hc
        have hc2 : c ∈ t := mem_of_stripChars (List.mem_filter.mp hc).1
        have := hnd c
        rw [hp] at this
        exact this hc2
      dsimp only
      rw [hnone]
      exact hr

theorem runSteps_preserve (P : ProductRecord → Prop) :
    ∀ (l : List (ProductRecord → ProductRecord)) (o : Option Nat) (r : ProductRecord),
      P r → (∀ f ∈ l, ∀ x, P x → P (f x)) → P (runSteps l o r) := by
  intro l
  induction l with
  | nil =>
      intro o r hr _
      cases o <;> exact hr
  | cons f fs ih =>
      intro o r hr hl
      have hf : ∀ x, P x → P (f x) := hl f (List.mem_cons_self f fs)
      have hfs : ∀ g ∈ fs, ∀ x, P x → P (g x) :=
        fun g hg => hl g (List.mem_cons_of_mem f hg)
      cases o with
      | none => exact ih none (f r) (hf r hr) hfs
      | some n =>
          cases n with
          | zero => exact hr
          | succ m => exact ih (some m) (f r) (hf r hr) hfs

theorem runSteps_eq_take (l : List (ProductRecord → ProductRecord)) :
    ∀ (i : Nat) (r : ProductRecord),
      runSteps l (some i) r = (l.take i).foldl (fun r f => f r) r := by
  induction l with
  | nil =>
      intro i r
      cases i <;> rfl
  | cons f fs ih =>
      intro i r
      cases i with
      | zero => rfl
      | succ n => exact ih n (f r)

/-- C7: every extracted record has a non-negative numeric price, and
when the price display text contains no digit the numeric price is
exactly 0 (the parse fails and the default survives). -/
theorem price_numeric_nonneg (doc : Doc) (sku : Nat) (url ts : Str) :
    0 ≤ (extract_product_data doc sku url ts).price_numeric ∧
    ((∀ c ∈ doc.priceElem.getD [], c.isDigit = false) →
      (extract_product_data doc sku url ts).price_numeric = 0) := by
  constructor
  · apply runSteps_preserve (fun r => 0 ≤ r.price_numeric)
    · exact le_refl 0
    · intro f hf x hx
      simp only [stepList, List.mem_cons, List.not_mem_nil, or_false] at hf
      rcases hf with rfl | rfl | rfl | rfl | rfl | rfl | rfl | rfl | rfl | rfl | rfl | rfl
      · rw [stepName_price]; exact hx
      · exact stepPrice_nonneg doc x hx
      · rw [stepDesc_price]; exact hx
      · rw [stepStock_price]; exact hx
      · rw [stepModel_price]; exact hx
      · rw [stepBrand_price]; exact hx
      · rw [stepCategory_price]; exact hx
      · rw [stepTags_price]; exact hx
      · rw [stepRating_price]; exact hx
      · rw [stepImages_price]; exact hx
      · rw [stepLabels_price]; exact hx
      · rw [stepSpecs_price]; exact hx
  · intro hnd
    apply runSteps_preserve (fun r => r.price_numeric = 0)
    · rfl
    · intro f hf x hx
      simp only [stepList, List.mem_cons, List.not_mem_nil, or_false] at hf
      rcases hf with rfl | rfl | rfl | rfl | rfl | rfl | rfl | rfl | rfl | rfl | rfl | rfl
      · rw [stepName_price]; exact hx
      · exact stepPrice_zero doc x hx hnd
      · rw [stepDesc_price]; exact hx
      · rw [stepStock_price]; exact hx
      · rw [stepModel_price]; exact hx
      · rw [stepBrand_price]; exact hx
      · rw [stepCategory_price]; exact hx
      · rw [stepTags_price]; exact hx
      · rw [stepRating_price]; exact hx
      · rw [stepImages_price]; exact hx
      · rw [stepLabels_price]; exact hx
      · rw [stepSpecs_price]; exact hx

/-- Witness for C7 on a document with no price element (so the display
text vacuously has no digit): the numeric price is 0. -/
theorem price_numeric_nonneg_witness :
    0 ≤ (extract_product_data docEmpty 1 [] []).price_numeric ∧
    (extract_product_data docEmpty 1 [] []).price_numeric = 0 :=
  ⟨(price_numeric_nonneg docEmpty 1 [] []).1,
   (price_numeric_nonneg docEmpty 1 [] []).2 (by decide)⟩

/-- C8 (spec Scenario B): on the concrete document with title
"USB Sensor Module", price text "KES 1,250.00", and a rating container
with 4 filled-star icons and text "12 reviews", extraction yields
`price_numeric = 1250.00`, `rating = 4`, `review_count = 12`. -/
theorem scenario_b :
    (extract_product_data docB 7 (urlOf 7) []).price_numeric = 1250 ∧
    (extract_product_data docB 7 (urlOf 7) []).rating = 4 ∧
    (extract_product_data docB 7 (urlOf 7) []).review_count = 12 := by
  decide

/-- C3 counterexample: on `docFault` the price step (step 1) raises;
the stock-status field — extracted later by the program, and present in
the document, as the fault-free run shows — is left at its default,
so an exception in one field does abort extraction of the remaining
fields. -/
theorem extraction_fault_counterexample :
    docFault.faultAt = some 1 ∧
    docFault.stockSpan = some (some " In Stock ".data) ∧
    (extract_product_data docFaultFree 5 (urlOf 5) []).stock_status = "In Stock".data ∧
    (extract_product_data docFault 5 (urlOf 5) []).stock_status = [] ∧
    (extract_product_data docFault 5 (urlOf 5) []).stock_status ≠
      (extract_product_data docFaultFree 5 (urlOf 5) []).stock_status := by
  decide

/-- C3 amended: an exception at extraction step `i` is caught at the
whole-method level — `extract_product_data` still returns a
`ProductRecord` (it never propagates), with exactly the steps before
`i` applied: fields of the faulting and later steps keep their
defaults even when the document carries values for them. -/
theorem extraction_fault_amended (doc : Doc) (sku : Nat) (url ts : Str) (i : Nat)
    (h : doc.faultAt = some i) :
    extract_product_data doc sku url ts =
      ((stepList doc url).take i).foldl (fun r f => f r) (initRecord sku url ts) := by
  unfold extract_product_data
  rw [h]
  exact runSteps_eq_take (stepList doc url) i (initRecord sku url ts)

/-- Witness for the amended C3 at the concrete faulting document. -/
theorem extraction_fault_amended_witness :
    docFault.faultAt = some 1 ∧
    extract_product_data docFault 5 (urlOf 5) [] =
      ((stepList docFault (urlOf 5)).take 1).foldl (fun r f => f r)
        (initRecord 5 (urlOf 5) []) :=
  ⟨rfl, extraction_fault_amended docFault 5 (urlOf 5) [] 1 rfl⟩

/-- C4 counterexample: the record extracted from `docSpecs` stores the
specification key "Product Code" verbatim — it is neither lower-cased
nor space-free, contradicting the claimed normalisation of the keys of
the record's specifications mapping. -/
theorem spec_key_not_normalized :
    ("Product Code".data, "ABC".data) ∈
      (extract_product_data docSpecs 5 (urlOf 5) []).specifications ∧
    ¬ ("Product Code".data = lowerStr "Product Code".data ∧
        ' ' ∉ "Product Code".data) := by
  decide

/-- C4 amended: specification keys are stored in the record as
extracted (trimmed only); the lower-casing — with spaces replaced by
underscores, not removed — is applied only to the `spec_`-prefixed CSV
column names when the persister flattens a record. -/
theorem spec_colname_normalized (r : ProductRecord) (k v : Str)
    (h : (k, v) ∈ r.specifications) :
    (specColName k, v) ∈ (flattenRecord r).specCols ∧
    specColName k =
      "spec_".data ++ (lowerStr k).map (fun c => if c = ' ' then '_' else c) := by
  refine ⟨?_, rfl⟩
  have hcols : (flattenRecord r).specCols =
      r.specifications.map (fun kv => (specColName kv.1, kv.2)) := rfl
  rw [hcols]
  exact List.mem_map.mpr ⟨(k, v), h, rfl⟩

/-- Witness for the amended C4 at the concrete record extracted from
`docSpecs`. -/
theorem spec_colname_normalized_witness :
    (("Product Code".data, "ABC".data) ∈
      (extract_product_data docSpecs 5 (urlOf 5) []).specifications) ∧
    ((specColName "Product Code".data, "ABC".data) ∈
      (flattenRecord (extract_product_data docSpecs 5 (urlOf 5) [])).specCols ∧
     specColName "Product Code".data =
      "spec_".data ++ (lowerStr "Product Code".data).map
        (fun c => if c = ' ' then '_' else c)) :=
  ⟨by decide,
   spec_colname_normalized (extract_product_data docSpecs 5 (urlOf 5) [])
     "Product Code".data "ABC".data (by decide)⟩
